import Mathlib

/-!
Verification of the `facecraft` photo-processing pipeline
(`src/facecraft/processing/*.py`) against its natural-language specification.

The Python source is shallowly embedded below.  Images are modelled as a
structure carrying height, width, channel count and a pixel function
(`y → x → channel → Nat` with byte values meant in `[0, 255]`).  External
capabilities (OpenCV resize, the Gaussian blur kernel, the face detector,
the segmentation model, …) are passed in as explicit parameters together
with hypotheses stating exactly their documented contracts; everything that
is implemented in the repository itself is translated definition-by-
definition from the Python.
-/

namespace Facecraft

/-! ## Images and rectangles -/

/-- A raster image: `height × width` pixels, each with `channels` byte
components, `px y x c` being component `c` of the pixel at row `y`,
column `x`. -/
structure Img where
  height : ℕ
  width : ℕ
  channels : ℕ
  px : ℕ → ℕ → ℕ → ℕ

/-- A dlib-style face rectangle: inclusive edge coordinates, with
`width = right - left + 1` and `height = bottom - top + 1`
(dlib's `rectangle` convention, used by `FaceDetector`). -/
structure Rect where
  left : ℤ
  top : ℤ
  right : ℤ
  bottom : ℤ
deriving DecidableEq

/-- `dlib.rectangle.width()`. -/
def Rect.w (r : Rect) : ℤ := r.right - r.left + 1

/-- `dlib.rectangle.height()`. -/
def Rect.h (r : Rect) : ℤ := r.bottom - r.top + 1

/-! ## `PhotoProcessor._save_output`: the adaptive JPEG quality loop
(`processor.py` lines 233–243).

The encoder itself (`cv2.imwrite` at a given JPEG quality followed by
`os.path.getsize`) is abstracted as a function `size : ℕ → ℕ` from quality
level to encoded byte size.  The Python loop

    quality = 90
    cv2.imwrite(jpg_path, img, [IMWRITE_JPEG_QUALITY, quality])
    while os.path.getsize(jpg_path) > max_size_bytes and quality > 50:
        quality -= 3
        cv2.imwrite(jpg_path, img, [IMWRITE_JPEG_QUALITY, quality])

is embedded with explicit fuel (the quality value itself bounds the number
of iterations, so fuel `90` is always sufficient; this is proved, not
assumed). -/

/-- One run of the `while` loop of `_save_output`, starting from current
quality `q` (whose encoding has just been written): returns the quality of
the last write. -/
def saveLoopFuel (size : ℕ → ℕ) (budget : ℕ) : ℕ → ℕ → ℕ
  | 0, q => q
  | fuel + 1, q =>
    if budget < size q ∧ 50 < q then saveLoopFuel size budget fuel (q - 3) else q

/-- The quality at which `_save_output` leaves the JPEG file when a size
budget (in bytes) is configured: the loop starts at quality 90. -/
def finalQuality (size : ℕ → ℕ) (budget : ℕ) : ℕ :=
  saveLoopFuel size budget 90 90

/-- The list of quality levels written by the `while` loop (after the
initial write at the entry quality). -/
def qualityLoopWrites (size : ℕ → ℕ) (budget : ℕ) : ℕ → ℕ → List ℕ
  | 0, _ => []
  | fuel + 1, q =>
    if budget < size q ∧ 50 < q then
      (q - 3) :: qualityLoopWrites size budget fuel (q - 3)
    else []

/-- `ProcessingOptions.max_jpeg_size_kb` (`Option ℕ`; Python also allows the
falsy value `0`).  `jpegWrites` is the full list of JPEG quality levels
`_save_output` writes, in order: the guard `if options.max_jpeg_size_kb:` is
Python truthiness, so `None` and `0` both take the single-write branch at
quality 90. -/
def jpegWrites (size : ℕ → ℕ) (maxJpegSizeKb : Option ℕ) : List ℕ :=
  match maxJpegSizeKb with
  | none => [90]
  | some k => if k = 0 then [90] else 90 :: qualityLoopWrites size (k * 1024) 90 90

/-! ## `OvalMask.apply` (`photo_enhancement.py` lines 140–178) -/

/-- `cv2.multiply(a, b, scale=1/255.0)` on bytes: `a * b / 255` rounded to
the nearest integer (`⌊a·b/255 + 1/2⌋ = ⌊(2·a·b + 255)/510⌋`). -/
def mulNorm (a m : ℕ) : ℕ := (2 * a * m + 255) / 510

/-- OpenCV `BORDER_REFLECT_101` index folding for an axis of length `n`:
`... 2 1 | 0 1 2 ... n-1 | n-2 n-3 ...` (the border pixel is not
duplicated).  Used by `cv2.GaussianBlur`'s default border mode. -/
def reflect101 (n : ℕ) (i : ℤ) : ℕ :=
  if n ≤ 1 then 0
  else
    let p := (i % (2 * ((n : ℤ) - 1))).toNat
    if p < n then p else 2 * (n - 1) - p

/-- The hard elliptical mask drawn by
`cv2.ellipse(mask, (w//2, h//2), (int(w*0.48), int(h*0.48)), 0, 0, 360, 255, -1)`:
255 on the filled centered ellipse with semi-axes `⌊0.48·w⌋`, `⌊0.48·h⌋`,
0 outside.  (The ideal real-valued ellipse models OpenCV's rasterisation;
`int(w*0.48)` is modelled as exact rational floor `48·w/100`.) -/
def ellipseMask (w h : ℕ) (y x : ℕ) : ℕ :=
  let cx : ℤ := (w / 2 : ℕ)
  let cy : ℤ := (h / 2 : ℕ)
  let rx : ℤ := (48 * w / 100 : ℕ)
  let ry : ℤ := (48 * h / 100 : ℕ)
  if ((x : ℤ) - cx) ^ 2 * ry ^ 2 + ((y : ℤ) - cy) ^ 2 * rx ^ 2 ≤ rx ^ 2 * ry ^ 2
  then 255 else 0

/-- Value at `(y, x)` of the convolution of a byte mask with a window
kernel `K` of radius `r`, border handled as `BORDER_REFLECT_101`
(the model of `cv2.GaussianBlur(mask, (2r+1, 2r+1), σ)`, whose kernel
support radius is exactly `r`). -/
def blurAt (K : ℤ → ℤ → ℚ) (r : ℕ) (mask : ℕ → ℕ → ℕ) (h w : ℕ) (y x : ℕ) : ℚ :=
  ∑ dy ∈ Finset.Icc (-(r : ℤ)) r, ∑ dx ∈ Finset.Icc (-(r : ℤ)) r,
    K dy dx * (mask (reflect101 h (y + dy)) (reflect101 w (x + dx)) : ℚ)

/-- Contract of a normalized blur kernel of window radius `r` (satisfied by
the Gaussian kernel OpenCV builds for `GaussianBlur`): weights are
nonnegative and sum to 1 over the window. -/
def KernelValid (K : ℤ → ℤ → ℚ) (r : ℕ) : Prop :=
  (∀ dy dx : ℤ, 0 ≤ K dy dx) ∧
    (∑ dy ∈ Finset.Icc (-(r : ℤ)) r, ∑ dx ∈ Finset.Icc (-(r : ℤ)) r, K dy dx) = 1

/-- `OvalMask.apply(image, feather=21)`: convert to 4 channels if needed
(`cv2.COLOR_BGR2BGRA` sets alpha to 255), build the hard ellipse mask,
feather it with a Gaussian blur (kernel `K`, window radius `feather / 2`),
and multiply the alpha channel by the normalized blurred mask
(`cv2.multiply(bgra[:,:,3], mask_blurred, scale=1/255.0)`).  Colour
channels are untouched. -/
def ovalMaskApply (K : ℤ → ℤ → ℚ) (img : Img) (feather : ℕ := 21) : Img :=
  let h := img.height
  let w := img.width
  let srcAlpha : ℕ → ℕ → ℕ := fun y x => if img.channels = 4 then img.px y x 3 else 255
  let m : ℕ → ℕ → ℕ := fun y x =>
    (round (blurAt K (feather / 2) (ellipseMask w h) h w y x)).toNat
  { height := h, width := w, channels := 4,
    px := fun y x c => if c = 3 then mulNorm (srcAlpha y x) (m y x) else img.px y x c }

/-! ## `ImageResizer.resize_with_padding` (`photo_enhancement.py` 184–242) -/

/-- The scaled dimensions `(new_w, new_h)` computed from
`ratio = min(target_w / w, target_h / h)`; `int(...)` truncation of the
nonnegative products is rational floor. -/
def resizedDims (w h tw th : ℕ) : ℕ × ℕ :=
  let ratio : ℚ := min ((tw : ℚ) / w) ((th : ℚ) / h)
  (⌊(w : ℚ) * ratio⌋.toNat, ⌊(h : ℚ) * ratio⌋.toNat)

/-- `ImageResizer.resize_with_padding(image, (target_w, target_h),
background_color, use_transparent)`.  `resizeFn` is the contract-level model
of `cv2.resize` (it raises on an empty target size, hence `Except`).  The
canvas is a transparent 4-channel image or an opaque 3-channel fill of the
background colour; the resized image is pasted centered, a 4-channel source
being alpha-composited onto the opaque canvas
(`canvas*(1-alpha) + resized*alpha`, the float result truncated by the
assignment into the `uint8` canvas) rather than having its alpha dropped. -/
def resizeWithPadding (resizeFn : Img → ℕ → ℕ → Except String Img)
    (img : Img) (targetW targetH : ℕ) (bg : ℕ → ℕ) (useTransparent : Bool) :
    Except String Img :=
  let nd := resizedDims img.width img.height targetW targetH
  let newW := nd.1
  let newH := nd.2
  let yOff := (targetH - newH) / 2
  let xOff := (targetW - newW) / 2
  match resizeFn img newW newH with
  | .error e => .error e
  | .ok resized =>
    if useTransparent then
      .ok { height := targetH, width := targetW, channels := 4,
            px := fun y x c =>
              if yOff ≤ y ∧ y < yOff + newH ∧ xOff ≤ x ∧ x < xOff + newW then
                if resized.channels = 4 then resized.px (y - yOff) (x - xOff) c
                else if c = 3 then 255 else resized.px (y - yOff) (x - xOff) c
              else 0 }
    else
      .ok { height := targetH, width := targetW, channels := 3,
            px := fun y x c =>
              if yOff ≤ y ∧ y < yOff + newH ∧ xOff ≤ x ∧ x < xOff + newW then
                if resized.channels = 4 then
                  (bg c * (255 - resized.px (y - yOff) (x - xOff) 3) +
                      resized.px (y - yOff) (x - xOff) c *
                        resized.px (y - yOff) (x - xOff) 3) / 255
                else resized.px (y - yOff) (x - xOff) c
              else bg c }

/-- Contract of `cv2.resize`: for a positive requested size it returns an
image of exactly that size with the source's channel count; a zero
dimension raises (`!ssize.empty()` assertion). -/
def ResizeFnValid (resizeFn : Img → ℕ → ℕ → Except String Img) : Prop :=
  ∀ img w' h', 0 < w' → 0 < h' →
    ∃ out, resizeFn img w' h' = .ok out ∧
      out.height = h' ∧ out.width = w' ∧ out.channels = img.channels

/-- A concrete instance of the `cv2.resize` contract, used to instantiate
witnesses and counterexamples: errors exactly on an empty target size, and
samples the source nearest-neighbour style otherwise (the claims under
verification never depend on interpolated pixel values). -/
def cvResizeModel (img : Img) (w' h' : ℕ) : Except String Img :=
  if w' = 0 ∨ h' = 0 then .error "resize: empty size"
  else .ok { height := h', width := w', channels := img.channels,
             px := fun y x c => img.px (y * img.height / h') (x * img.width / w') c }

/-! ## `PhotoEnhancer.enhance` (`photo_enhancement.py` lines 11–59) -/

/-- The five colour-channel stages of `PhotoEnhancer.enhance`, in source
order.  Each is built from OpenCV / PIL primitives (LAB conversion + CLAHE
+ LUT, `bilateralFilter`, NumPy gray-world scaling, `filter2D`, PIL
contrast/colour enhancers); they are carried as parameters whose
shape-preservation — the documented contract of every one of those
primitives — is hypothesised where needed. -/
structure ColorOps where
  autoExposure : Img → Img
  bilateral : Img → Img
  whiteBalance : Img → Img
  sharpen : Img → Img
  contrastSaturation : Img → Img

/-- A colour operation that returns an image of the same height, width and
channel count as its input. -/
def PreservesShape (f : Img → Img) : Prop :=
  ∀ img, (f img).height = img.height ∧ (f img).width = img.width ∧
    (f img).channels = img.channels

/-- `PhotoEnhancer.enhance`: split off the colour plane (`image[:, :, :3]`),
run the five colour stages, and — when the input had 4 channels — stack the
untouched input alpha plane back on (`np.dstack([bgr, alpha])`). -/
def photoEnhance (ops : ColorOps) (img : Img) : Img :=
  let bgr : Img := { height := img.height, width := img.width, channels := 3, px := img.px }
  let bgr5 :=
    ops.contrastSaturation (ops.sharpen (ops.whiteBalance (ops.bilateral (ops.autoExposure bgr))))
  if img.channels = 4 then
    { height := bgr5.height, width := bgr5.width, channels := 4,
      px := fun y x c => if c = 3 then img.px y x 3 else bgr5.px y x c }
  else bgr5

/-! ## `FaceDetector.crop_face` (`face_detection.py` lines 156–187) -/

/-- `FaceDetector.crop_face(image, face_rect, margin)`: crop around the
face with `margin × face dimension` of margin, 1.5× of that above the face,
all clamped to the image bounds. -/
def cropFace (img : Img) (r : Rect) (margin : ℚ) : Img :=
  let w : ℤ := img.width
  let h : ℤ := img.height
  let marginW : ℤ := ⌊(r.w : ℚ) * margin⌋
  let marginH : ℤ := ⌊(r.h : ℚ) * margin⌋
  let x1 := max 0 (r.left - marginW)
  let y1 := max 0 (r.top - ⌊(marginH : ℚ) * 3 / 2⌋)
  let x2 := min w (r.right + marginW)
  let y2 := min h (r.bottom + marginH)
  { height := (y2 - y1).toNat, width := (x2 - x1).toNat, channels := img.channels,
    px := fun y x c => img.px (y + y1.toNat) (x + x1.toNat) c }

/-! ## `FaceEnhancer.enhance` (`face_enhancement.py` lines 79–150) -/

/-- The CodeFormer capability behind `FaceEnhancer`: `available` is
`is_available` (both the network and the face helper loaded);
`detectFaces` is the internal helper's detect/align pass producing
`cropped_faces`; `restoreAll` is per-face inference plus paste-back.
`Except.error` models a raised exception inside the `try` block. -/
structure FaceEnhOracle where
  available : Bool
  detectFaces : Img → Except String (List Img)
  restoreAll : ℚ → Img → List Img → Except String Img

/-- `FaceEnhancer.enhance(image, fidelity_weight)`: pass-through when the
capability is unavailable; inside the `try`, an empty `cropped_faces` list
returns the original image; any exception is caught and the input image is
returned unchanged. -/
def faceEnhance (o : FaceEnhOracle) (fidelity : ℚ) (img : Img) : Img :=
  if o.available then
    match o.detectFaces img with
    | .error _ => img
    | .ok faces =>
      if faces.isEmpty then img
      else
        match o.restoreAll fidelity img faces with
        | .error _ => img
        | .ok restored => restored
  else img

/-! ## `PhotoProcessor` (`processor.py`) -/

/-- The `face_position` dict built at step 3 of `process_image`
(`{'x': left, 'y': top, 'width': width, 'height': height}`). -/
structure FacePos where
  x : ℤ
  y : ℤ
  width : ℤ
  height : ℤ
deriving DecidableEq

/-- `ProcessingResult` (the output-path string fields, which only mirror
the filesystem layout, are omitted). -/
structure ProcessingResult where
  success : Bool
  faceDetected : Bool := false
  faceCount : ℕ := 0
  facePosition : Option FacePos := none
  fileSizeBytes : ℕ := 0
  error : Option String := none

/-- `ProcessingOptions` with the source's defaults. -/
structure ProcessingOptions where
  width : ℕ := 648
  height : ℕ := 648
  backgroundColor : ℕ → ℕ := fun _ => 240
  faceMargin : ℚ := 3 / 10
  useOvalMask : Bool := true
  enhanceFace : Bool := true
  enhanceFidelity : ℚ := 7 / 10
  enhancePhoto : Bool := true
  maxJpegSizeKb : Option ℕ := some 99

/-- The `self.stats` counter dictionary. -/
structure Stats where
  total : ℕ
  success : ℕ
  no_face : ℕ
  errors : ℕ
deriving DecidableEq

/-- The counters as initialised in `PhotoProcessor.__init__`. -/
def initStats : Stats := ⟨0, 0, 0, 0⟩

/-- `PhotoProcessor.reset_stats`: replaces the counters with zeros. -/
def resetStats (_s : Stats) : Stats := ⟨0, 0, 0, 0⟩

/-- `get_stats()['success_rate']`: `success / total` when `total > 0`,
`0.0` otherwise. -/
def successRate (s : Stats) : ℚ :=
  if 0 < s.total then (s.success : ℚ) / s.total else 0

/-- The pipeline stages of one `process_image` call, recorded in execution
order; `crop` carries the face rectangle actually cropped around. -/
inductive Stage where
  | load
  | faceRestore
  | detect
  | segment
  | align
  | redetect
  | crop (r : Rect)
  | photoEnh
  | mask
  | resize
  | encode
deriving DecidableEq

/-- A 68-point dlib landmark set; the orchestrator only threads it from
`get_landmarks` into `align_face`. -/
structure Landmarks where
  pts : ℕ → ℤ × ℤ

/-- The external capabilities one `process_image` call consumes.  `load` is
the `cv2.imread` outcome for this input path; `Except.error` on a stage
models an exception raised inside that stage (caught at the orchestrator's
`try`/`except` boundary). -/
structure PipelineEnv where
  load : Option Img
  faceEnh : FaceEnhOracle
  detectFace : Img → Option Rect
  removeBackground : Img → Except String Img
  hasPredictor : Bool
  getLandmarks : Img → Rect → Option Landmarks
  alignFace : Img → Landmarks → Img
  photoOps : ColorOps
  maskKernel : ℤ → ℤ → ℚ
  resizeFn : Img → ℕ → ℕ → Except String Img
  savedSize : ℕ

/-- The message of the `ValueError` raised when `cv2.imread` returns
`None`. -/
def loadFailMsg : String := "Could not load image"

/-- The image after step 2 of `process_image`
(`if options.enhance_face and self.face_enhancer.is_available: image =
self.face_enhancer.enhance(image, options.enhance_fidelity)`). -/
def restoredImage (env : PipelineEnv) (opts : ProcessingOptions) (img0 : Img) : Img :=
  if opts.enhanceFace && env.faceEnh.available then
    faceEnhance env.faceEnh opts.enhanceFidelity img0
  else img0

/-- Outcome of the `try` block of `process_image`: an exception with its
message, the early `no_face_detected` return, or a successful run carrying
the `_save_output` result and the step-3 face position.  Each constructor
records the stages executed. -/
inductive RunResult where
  | threw (msg : String) (trace : List Stage)
  | noFace (trace : List Stage)
  | ok (res : ProcessingResult) (facePos : FacePos) (trace : List Stage)

/-- The stages executed by one `try`-body run. -/
def RunResult.trace : RunResult → List Stage
  | .threw _ t => t
  | .noFace t => t
  | .ok _ _ t => t

/-- Steps 6–10 of `process_image` (crop, optional photo enhancement,
optional oval mask, resize, save), given the image `imgA` and face
rectangle `rectA` left by the alignment step and the trace `t` so far. -/
def runTail (env : PipelineEnv) (opts : ProcessingOptions) (facePos : FacePos)
    (imgA : Img) (rectA : Rect) (t : List Stage) : RunResult :=
  let cropped := cropFace imgA rectA opts.faceMargin
  let t6 := t ++ [.crop rectA]
  let enhanced := if opts.enhancePhoto then photoEnhance env.photoOps cropped else cropped
  let t7 := if opts.enhancePhoto then t6 ++ [.photoEnh] else t6
  let masked := if opts.useOvalMask then ovalMaskApply env.maskKernel enhanced else enhanced
  let t8 := if opts.useOvalMask then t7 ++ [.mask] else t7
  match resizeWithPadding env.resizeFn masked opts.width opts.height
      opts.backgroundColor opts.useOvalMask with
  | .error e => .threw e (t8 ++ [.resize])
  | .ok _final =>
    .ok { success := true, fileSizeBytes := env.savedSize } facePos
      (t8 ++ [.resize, .encode])

/-- The body of `process_image` steps 1–10 (everything inside the `try`),
translated statement by statement from `processor.py` lines 110–188. -/
def runBody (env : PipelineEnv) (opts : ProcessingOptions) : RunResult :=
  match env.load with
  | none => .threw loadFailMsg [Stage.load]
  | some img0 =>
    let img1 := restoredImage env opts img0
    let t2 : List Stage :=
      if opts.enhanceFace && env.faceEnh.available then [.load, .faceRestore] else [.load]
    match env.detectFace img1 with
    | none => .noFace (t2 ++ [.detect])
    | some faceRect =>
      let t3 := t2 ++ [.detect]
      let facePos : FacePos :=
        { x := faceRect.left, y := faceRect.top, width := faceRect.w, height := faceRect.h }
      match env.removeBackground img1 with
      | .error e => .threw e (t3 ++ [.segment])
      | .ok imgNoBg0 =>
        let t4 := t3 ++ [.segment]
        let step5 : Img × Rect × List Stage :=
          if env.hasPredictor then
            match env.getLandmarks img1 faceRect with
            | some lm =>
              let aligned := env.alignFace imgNoBg0 lm
              match env.detectFace aligned with
              | some newRect => (aligned, newRect, t4 ++ [.align, .redetect])
              | none => (aligned, faceRect, t4 ++ [.align, .redetect])
            | none => (imgNoBg0, faceRect, t4)
          else (imgNoBg0, faceRect, t4)
        runTail env opts facePos step5.1 step5.2.1 step5.2.2

/-- `PhotoProcessor.process_image`: increments `total`, runs the `try`
body, and classifies the outcome — the `except` branch increments `errors`,
the no-face early return has already incremented `no_face`, the success
path increments `success` and fills in `face_detected`, `face_count` and
`face_position` on the `_save_output` result. -/
def processImage (env : PipelineEnv) (opts : ProcessingOptions) (s : Stats) :
    ProcessingResult × Stats × List Stage :=
  let s1 : Stats := { s with total := s.total + 1 }
  match runBody env opts with
  | .threw msg tr =>
    ({ success := false, error := some msg }, { s1 with errors := s1.errors + 1 }, tr)
  | .noFace tr =>
    ({ success := false, faceDetected := false, error := some "no_face_detected" },
      { s1 with no_face := s1.no_face + 1 }, tr)
  | .ok res facePos tr =>
    ({ res with faceDetected := true, faceCount := 1, facePosition := some facePos },
      { s1 with success := s1.success + 1 }, tr)

/-- How one call is classified by the statistics counters. -/
inductive Outcome where
  | success
  | noFace
  | error
deriving DecidableEq

/-- The outcome of one call in the environment `env`. -/
def outcomeOf (opts : ProcessingOptions) (env : PipelineEnv) : Outcome :=
  match runBody env opts with
  | .threw _ _ => .error
  | .noFace _ => .noFace
  | .ok _ _ _ => .success

/-- A sequence of `process_image` calls threaded through the stats state. -/
def runAll (opts : ProcessingOptions) (envs : List PipelineEnv) (s : Stats) : Stats :=
  envs.foldl (fun acc env => (processImage env opts acc).2.1) s

/-- The counter update performed by one `process_image` call, per
outcome class. -/
def bump (s : Stats) : Outcome → Stats
  | .success => { s with total := s.total + 1, success := s.success + 1 }
  | .noFace => { s with total := s.total + 1, no_face := s.no_face + 1 }
  | .error => { s with total := s.total + 1, errors := s.errors + 1 }

/-! ## Concrete fixtures used to instantiate witnesses and
counterexamples -/

/-- A solid image of the given size, 3 channels, all components zero. -/
def blankImg (h w : ℕ) : Img := ⟨h, w, 3, fun _ _ _ => 0⟩

/-- Identity colour stages: a trivially shape-preserving instance of the
`ColorOps` contract. -/
def idColorOps : ColorOps := ⟨id, id, id, id, id⟩

/-- The uniform box kernel of radius 10: a concrete kernel satisfying the
`KernelValid` contract (441 window taps of weight 1/441). -/
def uniformKernel : ℤ → ℤ → ℚ := fun _ _ => 1 / 441

/-- A capability oracle for `FaceEnhancer` with nothing loaded
(`codeformer_path` absent): `is_available` is false. -/
def unavailableEnh : FaceEnhOracle :=
  ⟨false, fun img => .ok [img], fun _ img _ => .ok img⟩

/-- A pipeline environment whose face detector finds no face anywhere and
whose input loads fine. -/
def envNoFace : PipelineEnv :=
  { load := some (blankImg 80 80)
    faceEnh := unavailableEnh
    detectFace := fun _ => none
    removeBackground := fun img => .ok img
    hasPredictor := false
    getLandmarks := fun _ _ => none
    alignFace := fun img _ => img
    photoOps := idColorOps
    maskKernel := uniformKernel
    resizeFn := cvResizeModel
    savedSize := 0 }

/-- A pipeline environment whose input image is unreadable
(`cv2.imread` returns `None`). -/
def envBadLoad : PipelineEnv :=
  { envNoFace with load := none }

/-- A concrete 40 × 40 face rectangle inside an 80 × 80 frame. -/
def rect0 : Rect := ⟨20, 20, 59, 59⟩

/-- A trivial landmark set. -/
def lm0 : Landmarks := ⟨fun _ => (0, 0)⟩

/-- A pipeline environment where a face and landmarks are always found. -/
def envFace : PipelineEnv :=
  { load := some (blankImg 80 80)
    faceEnh := unavailableEnh
    detectFace := fun _ => some rect0
    removeBackground := fun img => .ok img
    hasPredictor := true
    getLandmarks := fun _ _ => some lm0
    alignFace := fun img _ => img
    photoOps := idColorOps
    maskKernel := uniformKernel
    resizeFn := cvResizeModel
    savedSize := 1234 }

/-! ################################################################
    ## Theorems
    ################################################################ -/

theorem saveLoopFuel_exit (size : ℕ → ℕ) (budget : ℕ) :
    ∀ fuel q, q ≤ fuel →
      ¬(budget < size (saveLoopFuel size budget fuel q) ∧
        50 < saveLoopFuel size budget fuel q) := by
  intro fuel
  induction fuel with
  | zero =>
    intro q hq
    interval_cases q
    simp [saveLoopFuel]
  | succ n ih =>
    intro q hq
    rw [saveLoopFuel]
    by_cases h : budget < size q ∧ 50 < q
    · rw [if_pos h]
      exact ih (q - 3) (by omega)
    · rw [if_neg h]
      exact h

theorem saveLoopFuel_invariant (size : ℕ → ℕ) (budget : ℕ) :
    ∀ fuel q, 3 ∣ q → 48 ≤ q →
      3 ∣ saveLoopFuel size budget fuel q ∧ 48 ≤ saveLoopFuel size budget fuel q := by
  intro fuel
  induction fuel with
  | zero => intro q h3 h48; simpa [saveLoopFuel] using ⟨h3, h48⟩
  | succ n ih =>
    intro q h3 h48
    rw [saveLoopFuel]
    by_cases h : budget < size q ∧ 50 < q
    · rw [if_pos h]
      exact ih (q - 3) (by omega) (by omega)
    · rw [if_neg h]
      exact ⟨h3, h48⟩

theorem finalQuality_le_start (size : ℕ → ℕ) (budget : ℕ) :
    ∀ fuel q, saveLoopFuel size budget fuel q ≤ q := by
  intro fuel
  induction fuel with
  | zero => intro q; simp [saveLoopFuel]
  | succ n ih =>
    intro q
    rw [saveLoopFuel]
    by_cases h : budget < size q ∧ 50 < q
    · rw [if_pos h]; exact le_trans (ih (q - 3)) (by omega)
    · rw [if_neg h]

/-- C2 (counterexample): the claim as stated — on termination either the
encoded size is within the budget or the quality equals the floor value 50 —
is false.  With an encoder whose output is always 1000 bytes and a 10-byte
budget the loop runs 90, 87, …, 51, 48: the `quality > 50` test still passes
at 51, so the last decrement lands at 48, strictly below the floor, and the
final size (1000) still exceeds the budget. -/
theorem C2_counterexample :
    ¬((fun _ => 1000 : ℕ → ℕ) (finalQuality (fun _ => 1000) 10) ≤ 10 ∨
      finalQuality (fun _ => 1000) 10 = 50) := by
  decide

/-- C2 (amended): for every encoder-size function and byte budget the
adaptive-quality loop of `_save_output` terminates (fuel 90 reaches a state
where the loop guard `size > budget ∧ quality > 50` fails), and on
termination either the final encoded size is at or below the budget or the
quality has been driven to 48 — one step past the floor of 50, since the
qualities visited are 90, 87, …, 51, 48 and the guard still fires at 51. -/
theorem C2_save_loop_terminates (size : ℕ → ℕ) (budget : ℕ) :
    (¬(budget < size (finalQuality size budget) ∧ 50 < finalQuality size budget)) ∧
      (size (finalQuality size budget) ≤ budget ∨ finalQuality size budget = 48) := by
  have hexit := saveLoopFuel_exit size budget 90 90 (le_refl 90)
  have hinv := saveLoopFuel_invariant size budget 90 90 (by omega) (by omega)
  refine ⟨hexit, ?_⟩
  rcases hinv with ⟨h3, h48⟩
  unfold finalQuality at *
  by_cases hs : size (saveLoopFuel size budget 90 90) ≤ budget
  · exact Or.inl hs
  · right
    have h50 : saveLoopFuel size budget 90 90 ≤ 50 := by
      by_contra hq
      exact hexit ⟨by omega, by omega⟩
    omega

/-- C10: when `ProcessingOptions.max_jpeg_size_kb` is `None` or `0`
(both falsy in the Python guard `if options.max_jpeg_size_kb:`),
`_save_output` writes the JPEG exactly once, at quality 90, with no
size-bounded quality search; a budget of 0 kB behaves identically to no
budget at all. -/
theorem C10_zero_budget_single_write (size : ℕ → ℕ) :
    jpegWrites size none = [90] ∧ jpegWrites size (some 0) = [90] ∧
      jpegWrites size (some 0) = jpegWrites size none := by
  refine ⟨rfl, ?_, ?_⟩ <;> simp [jpegWrites]

/-- C1: when face detection finds no face on the (possibly restored)
image, `process_image` returns an unsuccessful `ProcessingResult` with
`face_detected = False` and error code exactly `"no_face_detected"`
(face count 0, no position, no output size), increments the no-face
counter and the total counter by exactly 1 leaving the success and error
counters unchanged, and executes no pipeline stage beyond load, optional
restoration and detection — no segmentation, crop, enhancement, mask,
resize or encoding. -/
theorem C1_no_face_terminal (env : PipelineEnv) (opts : ProcessingOptions)
    (s : Stats) (img0 : Img)
    (hload : env.load = some img0)
    (hdet : env.detectFace (restoredImage env opts img0) = none) :
    (processImage env opts s).1.success = false ∧
      (processImage env opts s).1.faceDetected = false ∧
      (processImage env opts s).1.error = some "no_face_detected" ∧
      (processImage env opts s).1.faceCount = 0 ∧
      (processImage env opts s).1.facePosition = none ∧
      (processImage env opts s).2.1 =
        { s with total := s.total + 1, no_face := s.no_face + 1 } ∧
      ∀ st ∈ (processImage env opts s).2.2,
        st = Stage.load ∨ st = Stage.faceRestore ∨ st = Stage.detect := by
  have hbody : runBody env opts =
      .noFace ((if opts.enhanceFace && env.faceEnh.available then
        [Stage.load, Stage.faceRestore] else [Stage.load]) ++ [Stage.detect]) := by
    rw [runBody, hload]
    simp only [hdet]
  rw [processImage, hbody]
  refine ⟨rfl, rfl, rfl, rfl, rfl, rfl, ?_⟩
  intro st hst
  by_cases hb : opts.enhanceFace && env.faceEnh.available <;>
    simp [hb] at hst <;> tauto

/-- C1 witness: a concrete run in an environment whose detector finds no
face. -/
theorem C1_no_face_terminal_witness :
    (processImage envNoFace {} initStats).1.error = some "no_face_detected" ∧
      (processImage envNoFace {} initStats).2.1 = ⟨1, 0, 1, 0⟩ := by
  have h := C1_no_face_terminal envNoFace {} initStats (blankImg 80 80) rfl rfl
  exact ⟨h.2.2.1, by rw [h.2.2.2.2.2.1]; rfl⟩

/-- C8: an unreadable/corrupt input (`cv2.imread` returns `None`) aborts
`process_image` before any later stage: the result is unsuccessful, the
error is the load failure (not `no_face_detected`), the error counter and
total counter increment by 1, the no-face and success counters are
untouched, and the only stage reached is the load itself. -/
theorem C8_load_failure_is_error (env : PipelineEnv) (opts : ProcessingOptions)
    (s : Stats) (hload : env.load = none) :
    (processImage env opts s).1.success = false ∧
      (processImage env opts s).1.error = some loadFailMsg ∧
      (processImage env opts s).1.error ≠ some "no_face_detected" ∧
      (processImage env opts s).2.1 =
        { s with total := s.total + 1, errors := s.errors + 1 } ∧
      (processImage env opts s).2.2 = [Stage.load] := by
  have hbody : runBody env opts = .threw loadFailMsg [Stage.load] := by
    rw [runBody, hload]
  rw [processImage, hbody]
  refine ⟨rfl, rfl, ?_, rfl, rfl⟩
  simp [loadFailMsg]

/-- C8 witness: a concrete run on an unreadable input. -/
theorem C8_load_failure_is_error_witness :
    (processImage envBadLoad {} initStats).1.success = false ∧
      (processImage envBadLoad {} initStats).2.1 = ⟨1, 0, 0, 1⟩ := by
  have h := C8_load_failure_is_error envBadLoad {} initStats rfl
  exact ⟨h.1, by rw [h.2.2.2.1]; rfl⟩

/-- C6: `FaceEnhancer.enhance` never aborts: with the capability
unavailable it is the identity; with the capability available, an internal
exception during detection, an empty internal face list, or an internal
exception during restoration/paste-back all return the input image
unchanged. -/
theorem C6_restoration_never_aborts (o : FaceEnhOracle) (fidelity : ℚ) (img : Img) :
    (o.available = false → faceEnhance o fidelity img = img) ∧
      (∀ e, o.detectFaces img = .error e → faceEnhance o fidelity img = img) ∧
      (o.detectFaces img = .ok [] → faceEnhance o fidelity img = img) ∧
      (∀ faces e, o.detectFaces img = .ok faces →
        o.restoreAll fidelity img faces = .error e → faceEnhance o fidelity img = img) := by
  refine ⟨fun hav => by simp [faceEnhance, hav], ?_, ?_, ?_⟩
  · intro e hdet
    by_cases hav : o.available <;> simp [faceEnhance, hav, hdet]
  · intro hdet
    by_cases hav : o.available <;> simp [faceEnhance, hav, hdet]
  · intro faces e hdet hres
    by_cases hav : o.available <;>
      by_cases hf : faces.isEmpty <;> simp [faceEnhance, hav, hdet, hf, hres]

/-- C6 witness: with no model configured, enhancement of a concrete image
is a pass-through. -/
theorem C6_restoration_never_aborts_witness :
    faceEnhance unavailableEnh (7 / 10) (blankImg 80 80) = blankImg 80 80 :=
  (C6_restoration_never_aborts unavailableEnh (7 / 10) (blankImg 80 80)).1 rfl

theorem runTail_crop_mem (env : PipelineEnv) (opts : ProcessingOptions)
    (facePos : FacePos) (imgA : Img) (rectA : Rect) (t : List Stage) :
    Stage.crop rectA ∈ (runTail env opts facePos imgA rectA t).trace := by
  simp only [runTail]
  split <;> split_ifs <;> simp [RunResult.trace]

theorem runTail_ok_facePos (env : PipelineEnv) (opts : ProcessingOptions)
    (facePos : FacePos) (imgA : Img) (rectA : Rect) (t : List Stage)
    (res : ProcessingResult) (fp : FacePos) (tr : List Stage)
    (h : runTail env opts facePos imgA rectA t = .ok res fp tr) : fp = facePos := by
  simp only [runTail] at h
  split at h
  · exact absurd h (by simp)
  · injection h with h1 h2 h3
    exact h2.symm

theorem processImage_trace (env : PipelineEnv) (opts : ProcessingOptions) (s : Stats) :
    (processImage env opts s).2.2 = (runBody env opts).trace := by
  rw [processImage]
  cases runBody env opts <;> rfl

theorem processImage_stats (env : PipelineEnv) (opts : ProcessingOptions) (s : Stats) :
    (processImage env opts s).2.1 = bump s (outcomeOf opts env) := by
  rw [processImage, outcomeOf]
  cases runBody env opts <;> rfl

/-- C7: with landmarks available the pipeline rotates the segmented image
and re-detects the face on it; the cropped rectangle is the re-detected one
when re-detection succeeds and the pre-rotation rectangle as a fallback
when it fails (the pipeline continuing either way), while the face
position of a successful result is always the pre-rotation position from
the initial detection. -/
theorem C7_redetect_after_alignment (env : PipelineEnv) (opts : ProcessingOptions)
    (s : Stats) (img0 bg : Img) (r : Rect) (lm : Landmarks)
    (hload : env.load = some img0)
    (hdet : env.detectFace (restoredImage env opts img0) = some r)
    (hbg : env.removeBackground (restoredImage env opts img0) = Except.ok bg)
    (hpred : env.hasPredictor = true)
    (hlm : env.getLandmarks (restoredImage env opts img0) r = some lm) :
    (∀ nr, env.detectFace (env.alignFace bg lm) = some nr →
        Stage.crop nr ∈ (processImage env opts s).2.2) ∧
      (env.detectFace (env.alignFace bg lm) = none →
        Stage.crop r ∈ (processImage env opts s).2.2) ∧
      ((processImage env opts s).1.success = true →
        (processImage env opts s).1.facePosition = some ⟨r.left, r.top, r.w, r.h⟩) := by
  have htrace := processImage_trace env opts s
  refine ⟨?_, ?_, ?_⟩
  · intro nr hre
    rw [htrace, runBody, hload]
    simp only [hdet, hbg, hpred, hlm, hre, if_true]
    exact runTail_crop_mem _ _ _ _ _ _
  · intro hre
    rw [htrace, runBody, hload]
    simp only [hdet, hbg, hpred, hlm, hre, if_true]
    exact runTail_crop_mem _ _ _ _ _ _
  · intro hsucc
    rcases hb : runBody env opts with ⟨msg, tr⟩ | ⟨tr⟩ | ⟨res, fp, tr⟩
    · simp only [processImage, hb] at hsucc
      exact absurd hsucc (by simp)
    · simp only [processImage, hb] at hsucc
      exact absurd hsucc (by simp)
    · simp only [processImage, hb]
      rw [runBody, hload] at hb
      simp only [hdet, hbg, hpred, hlm, if_true] at hb
      cases hre : env.detectFace (env.alignFace bg lm) <;>
        simp only [hre] at hb <;>
        rw [runTail_ok_facePos _ _ _ _ _ _ _ _ _ hb]

/-- C7 witness: a concrete aligned run where re-detection finds the face;
the cropped rectangle is the re-detected one and the reported position is
the pre-rotation one. -/
theorem C7_redetect_after_alignment_witness :
    Stage.crop rect0 ∈ (processImage envFace {} initStats).2.2 ∧
      ((processImage envFace {} initStats).1.success = true →
        (processImage envFace {} initStats).1.facePosition = some ⟨20, 20, 40, 40⟩) := by
  have h := C7_redetect_after_alignment envFace {} initStats (blankImg 80 80)
    (blankImg 80 80) rect0 lm0 rfl rfl rfl rfl rfl
  exact ⟨h.1 rect0 rfl, h.2.2⟩

theorem runAll_eq (opts : ProcessingOptions) :
    ∀ (envs : List PipelineEnv) (s : Stats),
      runAll opts envs s =
        ⟨s.total + envs.length,
          s.success + envs.countP (fun e => decide (outcomeOf opts e = .success)),
          s.no_face + envs.countP (fun e => decide (outcomeOf opts e = .noFace)),
          s.errors + envs.countP (fun e => decide (outcomeOf opts e = .error))⟩ := by
  intro envs
  induction envs with
  | nil => intro s; simp [runAll]
  | cons e es ih =>
    intro s
    have hstep : runAll opts (e :: es) s = runAll opts es ((processImage e opts s).2.1) := by
      simp [runAll]
    rw [hstep, processImage_stats, ih]
    cases s with
    | mk st ss sn se =>
      cases ho : outcomeOf opts e <;>
        simp [bump, List.countP_cons, ho] <;> omega

theorem outcome_partition (opts : ProcessingOptions) :
    ∀ envs : List PipelineEnv,
      envs.length =
        envs.countP (fun e => decide (outcomeOf opts e = .success)) +
        envs.countP (fun e => decide (outcomeOf opts e = .noFace)) +
        envs.countP (fun e => decide (outcomeOf opts e = .error)) := by
  intro envs
  induction envs with
  | nil => simp
  | cons e es ih =>
    cases ho : outcomeOf opts e <;>
      simp [List.countP_cons, ho, List.length_cons] <;> omega

/-- C9: after any sequence of `process_image` calls from freshly-reset
counters, with `S` successes, `F` no-face outcomes and `E` other errors,
the counters read `total = N = S + F + E`, `success = S`, `no_face = F`
and `errors = E`; every single call only ever increases each counter
(never decrements), the explicit reset operation is the only one that
zeroes them; and `get_stats` reports success rate `S / N` when `N > 0`
and `0.0` when `N = 0` (a total function — no division fault). -/
theorem C9_stats_counters (opts : ProcessingOptions) (envs : List PipelineEnv) :
    ((runAll opts envs initStats).total = envs.length ∧
      (runAll opts envs initStats).success =
        envs.countP (fun e => decide (outcomeOf opts e = .success)) ∧
      (runAll opts envs initStats).no_face =
        envs.countP (fun e => decide (outcomeOf opts e = .noFace)) ∧
      (runAll opts envs initStats).errors =
        envs.countP (fun e => decide (outcomeOf opts e = .error)) ∧
      (runAll opts envs initStats).total =
        (runAll opts envs initStats).success + (runAll opts envs initStats).no_face +
          (runAll opts envs initStats).errors) ∧
    (∀ (env : PipelineEnv) (s₀ : Stats),
      s₀.total ≤ ((processImage env opts s₀).2.1).total ∧
      s₀.success ≤ ((processImage env opts s₀).2.1).success ∧
      s₀.no_face ≤ ((processImage env opts s₀).2.1).no_face ∧
      s₀.errors ≤ ((processImage env opts s₀).2.1).errors) ∧
    (∀ s' : Stats, resetStats s' = ⟨0, 0, 0, 0⟩) ∧
    ((0 < (runAll opts envs initStats).total →
        successRate (runAll opts envs initStats) =
          ((runAll opts envs initStats).success : ℚ) / (runAll opts envs initStats).total) ∧
      ((runAll opts envs initStats).total = 0 → successRate (runAll opts envs initStats) = 0)) := by
  have hrun := runAll_eq opts envs initStats
  refine ⟨?_, ?_, fun _ => rfl, ?_⟩
  · rw [hrun]
    refine ⟨by simp [initStats], by simp [initStats], by simp [initStats],
      by simp [initStats], ?_⟩
    simp only [initStats, Nat.zero_add]
    exact outcome_partition opts envs
  · intro env s₀
    rw [processImage_stats]
    cases outcomeOf opts env <;> simp [bump]
  · constructor
    · intro hpos
      rw [successRate, if_pos hpos]
    · intro hzero
      rw [successRate, hzero]
      simp

/-- C9 witness: a concrete three-call sequence (one load error, one
no-face, one success) yields `total = 3 = 1 + 1 + 1` and rate `1/3`. -/
theorem C9_stats_counters_witness :
    (runAll {} [envBadLoad, envNoFace, envFace] initStats).total = 3 ∧
      (runAll {} [envBadLoad, envNoFace, envFace] initStats).total =
        (runAll {} [envBadLoad, envNoFace, envFace] initStats).success +
          (runAll {} [envBadLoad, envNoFace, envFace] initStats).no_face +
          (runAll {} [envBadLoad, envNoFace, envFace] initStats).errors := by
  have h := C9_stats_counters {} [envBadLoad, envNoFace, envFace]
  exact ⟨by rw [h.1.1]; rfl, h.1.2.2.2.2⟩

/-- C5: `PhotoEnhancer.enhance` returns an image of identical height,
width and channel count (given the shape-preservation contracts of the
five colour primitives it composes, and a 3- or 4-channel input), and for
a 4-channel input the output's alpha channel is byte-for-byte the input's
alpha channel — only colour channels are modified. -/
theorem C5_enhance_shape_and_alpha (ops : ColorOps) (img : Img)
    (h1 : PreservesShape ops.autoExposure) (h2 : PreservesShape ops.bilateral)
    (h3 : PreservesShape ops.whiteBalance) (h4 : PreservesShape ops.sharpen)
    (h5 : PreservesShape ops.contrastSaturation)
    (hch : img.channels = 3 ∨ img.channels = 4) :
    (photoEnhance ops img).height = img.height ∧
      (photoEnhance ops img).width = img.width ∧
      (photoEnhance ops img).channels = img.channels ∧
      (img.channels = 4 → ∀ y x, (photoEnhance ops img).px y x 3 = img.px y x 3) := by
  have hcomp : ∀ i : Img,
      (ops.contrastSaturation (ops.sharpen (ops.whiteBalance
        (ops.bilateral (ops.autoExposure i))))).height = i.height ∧
      (ops.contrastSaturation (ops.sharpen (ops.whiteBalance
        (ops.bilateral (ops.autoExposure i))))).width = i.width ∧
      (ops.contrastSaturation (ops.sharpen (ops.whiteBalance
        (ops.bilateral (ops.autoExposure i))))).channels = i.channels := by
    intro i
    obtain ⟨a1, a2, a3⟩ := h1 i
    obtain ⟨b1, b2, b3⟩ := h2 (ops.autoExposure i)
    obtain ⟨c1, c2, c3⟩ := h3 (ops.bilateral (ops.autoExposure i))
    obtain ⟨d1, d2, d3⟩ := h4 (ops.whiteBalance (ops.bilateral (ops.autoExposure i)))
    obtain ⟨f1, f2, f3⟩ := h5 (ops.sharpen (ops.whiteBalance (ops.bilateral (ops.autoExposure i))))
    exact ⟨by rw [f1, d1, c1, b1, a1], by rw [f2, d2, c2, b2, a2],
      by rw [f3, d3, c3, b3, a3]⟩
  obtain ⟨hh, hw, hcc⟩ :=
    hcomp { height := img.height, width := img.width, channels := 3, px := img.px }
  by_cases hc : img.channels = 4
  · simp only [photoEnhance, hc, if_pos]
    exact ⟨hh, hw, trivial, fun _ _ _ => trivial⟩
  · simp only [photoEnhance, if_neg hc]
    have h3c : img.channels = 3 := hch.resolve_right hc
    exact ⟨hh, hw, by rw [hcc, h3c], fun hc4 => absurd hc4 hc⟩

/-- C5 witness: identity colour stages on a concrete 4-channel image. -/
theorem C5_enhance_shape_and_alpha_witness :
    (photoEnhance idColorOps ⟨6, 6, 4, fun y x c => y + x + c⟩).channels = 4 ∧
      (photoEnhance idColorOps ⟨6, 6, 4, fun y x c => y + x + c⟩).px 1 2 3 = 6 := by
  have h := C5_enhance_shape_and_alpha idColorOps ⟨6, 6, 4, fun y x c => y + x + c⟩
    (fun _ => ⟨rfl, rfl, rfl⟩) (fun _ => ⟨rfl, rfl, rfl⟩) (fun _ => ⟨rfl, rfl, rfl⟩)
    (fun _ => ⟨rfl, rfl, rfl⟩) (fun _ => ⟨rfl, rfl, rfl⟩) (Or.inr rfl)
  exact ⟨h.2.2.1, by rw [h.2.2.2 rfl 1 2]⟩

theorem resizedDims_le (w h tw th : ℕ) (hw : 0 < w) (hh : 0 < h) :
    (resizedDims w h tw th).1 ≤ tw ∧ (resizedDims w h tw th).2 ≤ th := by
  unfold resizedDims
  constructor
  · have h1 : (w : ℚ) * min ((tw : ℚ) / w) ((th : ℚ) / h) ≤ (tw : ℚ) := by
      calc (w : ℚ) * min ((tw : ℚ) / w) ((th : ℚ) / h)
          ≤ (w : ℚ) * ((tw : ℚ) / w) :=
            mul_le_mul_of_nonneg_left (min_le_left _ _) (by positivity)
        _ = tw := by field_simp
    have h2 : ⌊(w : ℚ) * min ((tw : ℚ) / w) ((th : ℚ) / h)⌋ ≤ (tw : ℤ) := by
      have := Int.floor_mono h1
      rwa [Int.floor_natCast] at this
    exact Int.toNat_le.mpr h2
  · have h1 : (h : ℚ) * min ((tw : ℚ) / w) ((th : ℚ) / h) ≤ (th : ℚ) := by
      calc (h : ℚ) * min ((tw : ℚ) / w) ((th : ℚ) / h)
          ≤ (h : ℚ) * ((th : ℚ) / h) :=
            mul_le_mul_of_nonneg_left (min_le_right _ _) (by positivity)
        _ = th := by field_simp
    have h2 : ⌊(h : ℚ) * min ((tw : ℚ) / w) ((th : ℚ) / h)⌋ ≤ (th : ℤ) := by
      have := Int.floor_mono h1
      rwa [Int.floor_natCast] at this
    exact Int.toNat_le.mpr h2

/-- C3 (counterexample): the claim as stated — for *every* source image
and target size an image of exactly the target size is returned — is
false: a 1 × 3 source resized to a 2 × 2 target gives
`new_w = int(1 · min(2/1, 2/3)) = 0`, and `cv2.resize` raises on the empty
size, so `resize_with_padding` raises instead of returning an image. -/
theorem C3_counterexample :
    ¬ ∃ out, resizeWithPadding cvResizeModel ⟨3, 1, 3, fun _ _ _ => 0⟩ 2 2
      (fun _ => 240) false = Except.ok out := by
  have hdims : resizedDims 1 3 2 2 = (0, 2) := by
    norm_num [resizedDims]
    rfl
  intro ⟨out, hout⟩
  rw [resizeWithPadding] at hout
  simp only [hdims] at hout
  rw [show cvResizeModel ⟨3, 1, 3, fun _ _ _ => 0⟩ 0 2 = Except.error "resize: empty size"
    from by simp [cvResizeModel]] at hout
  exact Except.noConfusion hout

/-- C3 (amended): whenever the scaled dimensions
`(new_w, new_h) = int-floor of (w, h) · min(target_w/w, target_h/h)` are
both positive (so `cv2.resize` succeeds; otherwise the call raises),
`resize_with_padding` returns an image of exactly `target_w × target_h`;
the single uniform scale factor never produces a scaled image larger than
the target (no source content is cropped), the scaled image is pasted
centered at offsets `((target − new)/2)`, padding fills the remainder
(background colour on an opaque canvas, fully transparent pixels on a
transparent canvas), and a 4-channel source pasted onto the opaque canvas
is alpha-composited against the background colour instead of having its
alpha channel dropped. -/
theorem C3_resize_with_padding (resizeFn : Img → ℕ → ℕ → Except String Img)
    (img : Img) (tw th nW nH : ℕ) (bg : ℕ → ℕ) (useT : Bool)
    (hres : ResizeFnValid resizeFn)
    (hw : 0 < img.width) (hh : 0 < img.height)
    (hnd : resizedDims img.width img.height tw th = (nW, nH))
    (hnw : 0 < nW) (hnh : 0 < nH) :
    ∃ out rimg,
      resizeWithPadding resizeFn img tw th bg useT = Except.ok out ∧
      resizeFn img nW nH = Except.ok rimg ∧
      rimg.width = nW ∧ rimg.height = nH ∧ rimg.channels = img.channels ∧
      out.width = tw ∧ out.height = th ∧
      nW ≤ tw ∧ nH ≤ th ∧
      out.channels = (if useT then 4 else 3) ∧
      (∀ y x c, y < nH → x < nW → useT = false → img.channels = 4 →
        out.px ((th - nH) / 2 + y) ((tw - nW) / 2 + x) c =
          (bg c * (255 - rimg.px y x 3) + rimg.px y x c * rimg.px y x 3) / 255) ∧
      (∀ y x c, y < nH → x < nW → useT = false → img.channels ≠ 4 →
        out.px ((th - nH) / 2 + y) ((tw - nW) / 2 + x) c = rimg.px y x c) ∧
      (∀ y x c, y < nH → x < nW → useT = true → img.channels = 4 →
        out.px ((th - nH) / 2 + y) ((tw - nW) / 2 + x) c = rimg.px y x c) ∧
      (∀ y x c, useT = false →
        (y < (th - nH) / 2 ∨ (th - nH) / 2 + nH ≤ y ∨
          x < (tw - nW) / 2 ∨ (tw - nW) / 2 + nW ≤ x) →
        out.px y x c = bg c) ∧
      (∀ y x c, useT = true →
        (y < (th - nH) / 2 ∨ (th - nH) / 2 + nH ≤ y ∨
          x < (tw - nW) / 2 ∨ (tw - nW) / 2 + nW ≤ x) →
        out.px y x c = 0) := by
  obtain ⟨rimg, hr, hrh, hrw, hrc⟩ := hres img nW nH hnw hnh
  obtain ⟨hltw, hlth⟩ := resizedDims_le img.width img.height tw th hw hh
  rw [hnd] at hltw hlth
  simp only at hltw hlth
  cases useT with
  | false =>
    have hmain : resizeWithPadding resizeFn img tw th bg false =
        Except.ok
          { height := th, width := tw, channels := 3,
            px := fun y x c =>
              if (th - nH) / 2 ≤ y ∧ y < (th - nH) / 2 + nH ∧
                  (tw - nW) / 2 ≤ x ∧ x < (tw - nW) / 2 + nW then
                if rimg.channels = 4 then
                  (bg c * (255 - rimg.px (y - (th - nH) / 2) (x - (tw - nW) / 2) 3) +
                      rimg.px (y - (th - nH) / 2) (x - (tw - nW) / 2) c *
                        rimg.px (y - (th - nH) / 2) (x - (tw - nW) / 2) 3) / 255
                else rimg.px (y - (th - nH) / 2) (x - (tw - nW) / 2) c
              else bg c } := by
      rw [resizeWithPadding]
      simp only [hnd, hr]
      rfl
    refine ⟨_, rimg, hmain, hr, hrw, hrh, hrc, rfl, rfl, hltw, hlth, rfl,
      ?_, ?_, ?_, ?_, ?_⟩
    · intro y x c hy hx _ h4
      have hcond : (th - nH) / 2 ≤ (th - nH) / 2 + y ∧
          (th - nH) / 2 + y < (th - nH) / 2 + nH ∧
          (tw - nW) / 2 ≤ (tw - nW) / 2 + x ∧
          (tw - nW) / 2 + x < (tw - nW) / 2 + nW := by omega
      rw [← hrc] at h4
      simp only [if_pos hcond, if_pos h4, Nat.add_sub_cancel_left]
    · intro y x c hy hx _ h4
      have hcond : (th - nH) / 2 ≤ (th - nH) / 2 + y ∧
          (th - nH) / 2 + y < (th - nH) / 2 + nH ∧
          (tw - nW) / 2 ≤ (tw - nW) / 2 + x ∧
          (tw - nW) / 2 + x < (tw - nW) / 2 + nW := by omega
      rw [← hrc] at h4
      simp only [if_pos hcond, if_neg h4, Nat.add_sub_cancel_left]
    · intro y x c _ _ habs
      exact Bool.noConfusion habs
    · intro y x c _ hout
      have hcond : ¬((th - nH) / 2 ≤ y ∧ y < (th - nH) / 2 + nH ∧
          (tw - nW) / 2 ≤ x ∧ x < (tw - nW) / 2 + nW) := by omega
      simp only [if_neg hcond]
    · intro y x c habs _
      exact Bool.noConfusion habs
  | true =>
    have hmain : resizeWithPadding resizeFn img tw th bg true =
        Except.ok
          { height := th, width := tw, channels := 4,
            px := fun y x c =>
              if (th - nH) / 2 ≤ y ∧ y < (th - nH) / 2 + nH ∧
                  (tw - nW) / 2 ≤ x ∧ x < (tw - nW) / 2 + nW then
                if rimg.channels = 4 then
                  rimg.px (y - (th - nH) / 2) (x - (tw - nW) / 2) c
                else if c = 3 then 255
                else rimg.px (y - (th - nH) / 2) (x - (tw - nW) / 2) c
              else 0 } := by
      rw [resizeWithPadding]
      simp only [hnd, hr]
      rfl
    refine ⟨_, rimg, hmain, hr, hrw, hrh, hrc, rfl, rfl, hltw, hlth, rfl,
      ?_, ?_, ?_, ?_, ?_⟩
    · intro y x c _ _ habs _
      exact Bool.noConfusion habs
    · intro y x c _ _ habs _
      exact Bool.noConfusion habs
    · intro y x c hy hx _ h4
      have hcond : (th - nH) / 2 ≤ (th - nH) / 2 + y ∧
          (th - nH) / 2 + y < (th - nH) / 2 + nH ∧
          (tw - nW) / 2 ≤ (tw - nW) / 2 + x ∧
          (tw - nW) / 2 + x < (tw - nW) / 2 + nW := by omega
      rw [← hrc] at h4
      simp only [if_pos hcond, if_pos h4, Nat.add_sub_cancel_left]
    · intro y x c habs _
      exact Bool.noConfusion habs
    · intro y x c _ hout
      have hcond : ¬((th - nH) / 2 ≤ y ∧ y < (th - nH) / 2 + nH ∧
          (tw - nW) / 2 ≤ x ∧ x < (tw - nW) / 2 + nW) := by omega
      simp only [if_neg hcond]

theorem corner_axis_sq (w : ℕ) (hw : 66 ≤ w) (x : ℕ)
    (hx : x ≤ 10 ∨ (w - 11 ≤ x ∧ x ≤ w - 1)) :
    484 * ((48 * w / 100 : ℕ) : ℤ) ^ 2 ≤ 961 * ((x : ℤ) - ((w / 2 : ℕ) : ℤ)) ^ 2 := by
  have hlin : 22 * ((48 * w / 100 : ℕ) : ℤ) ≤ 31 * (((w / 2 : ℕ) : ℤ) - (x : ℤ)) ∨
      22 * ((48 * w / 100 : ℕ) : ℤ) ≤ 31 * ((x : ℤ) - ((w / 2 : ℕ) : ℤ)) := by
    rcases hx with hx | hx
    · left; omega
    · right
      rcases le_or_lt w 70 with h70 | h70
      · interval_cases w <;> omega
      · omega
  have hr0 : (0 : ℤ) ≤ 22 * ((48 * w / 100 : ℕ) : ℤ) := by positivity
  rcases hlin with hlin | hlin
  · nlinarith [sq_nonneg (((w / 2 : ℕ) : ℤ) - (x : ℤ))]
  · nlinarith [sq_nonneg ((x : ℤ) - ((w / 2 : ℕ) : ℤ))]

theorem ellipseMask_corner_zero (w h x y : ℕ) (hw : 66 ≤ w) (hh : 66 ≤ h)
    (hx : x ≤ 10 ∨ (w - 11 ≤ x ∧ x ≤ w - 1))
    (hy : y ≤ 10 ∨ (h - 11 ≤ y ∧ y ≤ h - 1)) :
    ellipseMask w h y x = 0 := by
  have hxb := corner_axis_sq w hw x hx
  have hyb := corner_axis_sq h hh y hy
  have hrx : (31 : ℤ) ≤ ((48 * w / 100 : ℕ) : ℤ) := by omega
  have hry : (31 : ℤ) ≤ ((48 * h / 100 : ℕ) : ℤ) := by omega
  have p1 : 484 * (((48 * w / 100 : ℕ) : ℤ) ^ 2 * ((48 * h / 100 : ℕ) : ℤ) ^ 2) ≤
      961 * (((x : ℤ) - ((w / 2 : ℕ) : ℤ)) ^ 2 * ((48 * h / 100 : ℕ) : ℤ) ^ 2) := by
    nlinarith [mul_le_mul_of_nonneg_right hxb (sq_nonneg ((48 * h / 100 : ℕ) : ℤ))]
  have p2 : 484 * (((48 * w / 100 : ℕ) : ℤ) ^ 2 * ((48 * h / 100 : ℕ) : ℤ) ^ 2) ≤
      961 * (((y : ℤ) - ((h / 2 : ℕ) : ℤ)) ^ 2 * ((48 * w / 100 : ℕ) : ℤ) ^ 2) := by
    nlinarith [mul_le_mul_of_nonneg_right hyb (sq_nonneg ((48 * w / 100 : ℕ) : ℤ))]
  have p3 : (1 : ℤ) ≤ ((48 * w / 100 : ℕ) : ℤ) ^ 2 * ((48 * h / 100 : ℕ) : ℤ) ^ 2 := by
    have h1 : (31 : ℤ) * 31 ≤ ((48 * w / 100 : ℕ) : ℤ) * ((48 * h / 100 : ℕ) : ℤ) :=
      mul_le_mul hrx hry (by norm_num) (by linarith)
    nlinarith [h1]
  have hcond : ¬(((x : ℤ) - ((w / 2 : ℕ) : ℤ)) ^ 2 * ((48 * h / 100 : ℕ) : ℤ) ^ 2 +
      ((y : ℤ) - ((h / 2 : ℕ) : ℤ)) ^ 2 * ((48 * w / 100 : ℕ) : ℤ) ^ 2 ≤
      ((48 * w / 100 : ℕ) : ℤ) ^ 2 * ((48 * h / 100 : ℕ) : ℤ) ^ 2) := by
    rw [not_le]
    linarith [p1, p2, p3]
  simp only [ellipseMask]
  rw [if_neg hcond]


theorem reflect101_near_zero (n : ℕ) (hn : 66 ≤ n) (d : ℤ)
    (h1 : -10 ≤ d) (h2 : d ≤ 10) : reflect101 n d ≤ 10 := by
  simp only [reflect101]
  rw [if_neg (by omega)]
  rcases le_or_lt 0 d with hd | hd
  · have hmod : d % (2 * ((n : ℤ) - 1)) = d := Int.emod_eq_of_lt hd (by omega)
    rw [hmod]
    have hlt : d.toNat < n := by omega
    rw [if_pos hlt]
    omega
  · have e1 : (d + 2 * ((n : ℤ) - 1)) % (2 * ((n : ℤ) - 1)) = d % (2 * ((n : ℤ) - 1)) := by
      conv_lhs => rw [show d + 2 * ((n : ℤ) - 1) = d + 2 * ((n : ℤ) - 1) * 1 by ring]
      exact Int.add_mul_emod_self_left d (2 * ((n : ℤ) - 1)) 1
    have e2 : (d + 2 * ((n : ℤ) - 1)) % (2 * ((n : ℤ) - 1)) = d + 2 * ((n : ℤ) - 1) :=
      Int.emod_eq_of_lt (by omega) (by omega)
    have hmod : d % (2 * ((n : ℤ) - 1)) = d + 2 * ((n : ℤ) - 1) := by
      rw [← e1, e2]
    rw [hmod]
    have hge : ¬((d + 2 * ((n : ℤ) - 1)).toNat < n) := by omega
    rw [if_neg hge]
    omega

theorem reflect101_near_top (n : ℕ) (hn : 66 ≤ n) (d : ℤ)
    (h1 : -10 ≤ d) (h2 : d ≤ 10) :
    n - 11 ≤ reflect101 n (((n - 1 : ℕ) : ℤ) + d) ∧
      reflect101 n (((n - 1 : ℕ) : ℤ) + d) ≤ n - 1 := by
  simp only [reflect101]
  rw [if_neg (by omega)]
  have hmod : (((n - 1 : ℕ) : ℤ) + d) % (2 * ((n : ℤ) - 1)) = ((n - 1 : ℕ) : ℤ) + d :=
    Int.emod_eq_of_lt (by omega) (by omega)
  rw [hmod]
  rcases lt_or_le ((((n - 1 : ℕ) : ℤ) + d).toNat) n with hlt | hge
  · rw [if_pos hlt]
    constructor <;> omega
  · rw [if_neg (not_lt.mpr hge)]
    constructor <;> omega

theorem reflect101_center (n : ℕ) (hn : 66 ≤ n) (d : ℤ)
    (h1 : -10 ≤ d) (h2 : d ≤ 10) :
    ((reflect101 n (((n / 2 : ℕ) : ℤ) + d) : ℕ) : ℤ) = ((n / 2 : ℕ) : ℤ) + d := by
  simp only [reflect101]
  rw [if_neg (by omega)]
  have hmod : (((n / 2 : ℕ) : ℤ) + d) % (2 * ((n : ℤ) - 1)) = ((n / 2 : ℕ) : ℤ) + d :=
    Int.emod_eq_of_lt (by omega) (by omega)
  rw [hmod]
  have hlt : ((((n / 2 : ℕ) : ℤ) + d).toNat) < n := by omega
  rw [if_pos hlt]
  omega

theorem blurAt_corner_zero (K : ℤ → ℤ → ℚ) (w h : ℕ) (hw : 66 ≤ w) (hh : 66 ≤ h)
    (x0 y0 : ℕ) (hx0 : x0 = 0 ∨ x0 = w - 1) (hy0 : y0 = 0 ∨ y0 = h - 1) :
    blurAt K 10 (ellipseMask w h) h w y0 x0 = 0 := by
  rw [blurAt]
  refine Finset.sum_eq_zero fun dy hdy => Finset.sum_eq_zero fun dx hdx => ?_
  rw [Finset.mem_Icc] at hdy hdx
  have hxr : reflect101 w ((x0 : ℤ) + dx) ≤ 10 ∨
      (w - 11 ≤ reflect101 w ((x0 : ℤ) + dx) ∧ reflect101 w ((x0 : ℤ) + dx) ≤ w - 1) := by
    rcases hx0 with rfl | rfl
    · left
      rw [show (((0 : ℕ) : ℤ) + dx) = dx by simp]
      exact reflect101_near_zero w hw dx hdx.1 hdx.2
    · right
      exact reflect101_near_top w hw dx hdx.1 hdx.2
  have hyr : reflect101 h ((y0 : ℤ) + dy) ≤ 10 ∨
      (h - 11 ≤ reflect101 h ((y0 : ℤ) + dy) ∧ reflect101 h ((y0 : ℤ) + dy) ≤ h - 1) := by
    rcases hy0 with rfl | rfl
    · left
      rw [show (((0 : ℕ) : ℤ) + dy) = dy by simp]
      exact reflect101_near_zero h hh dy hdy.1 hdy.2
    · right
      exact reflect101_near_top h hh dy hdy.1 hdy.2
  rw [ellipseMask_corner_zero w h _ _ hw hh hxr hyr]
  simp

theorem ellipseMask_center (w h : ℕ) (hw : 66 ≤ w) (hh : 66 ≤ h) (x y : ℕ)
    (hx : ((x : ℤ) - ((w / 2 : ℕ) : ℤ)) ^ 2 ≤ 100)
    (hy : ((y : ℤ) - ((h / 2 : ℕ) : ℤ)) ^ 2 ≤ 100) :
    ellipseMask w h y x = 255 := by
  have hrx : (31 : ℤ) ≤ ((48 * w / 100 : ℕ) : ℤ) := by omega
  have hry : (31 : ℤ) ≤ ((48 * h / 100 : ℕ) : ℤ) := by omega
  have a1 : ((x : ℤ) - ((w / 2 : ℕ) : ℤ)) ^ 2 * ((48 * h / 100 : ℕ) : ℤ) ^ 2 ≤
      100 * ((48 * h / 100 : ℕ) : ℤ) ^ 2 :=
    mul_le_mul_of_nonneg_right hx (sq_nonneg _)
  have a2 : ((y : ℤ) - ((h / 2 : ℕ) : ℤ)) ^ 2 * ((48 * w / 100 : ℕ) : ℤ) ^ 2 ≤
      100 * ((48 * w / 100 : ℕ) : ℤ) ^ 2 :=
    mul_le_mul_of_nonneg_right hy (sq_nonneg _)
  have b1 : 200 * ((48 * h / 100 : ℕ) : ℤ) ^ 2 ≤
      ((48 * w / 100 : ℕ) : ℤ) ^ 2 * ((48 * h / 100 : ℕ) : ℤ) ^ 2 :=
    mul_le_mul_of_nonneg_right (by nlinarith [hrx]) (sq_nonneg _)
  have b2 : 200 * ((48 * w / 100 : ℕ) : ℤ) ^ 2 ≤
      ((48 * h / 100 : ℕ) : ℤ) ^ 2 * ((48 * w / 100 : ℕ) : ℤ) ^ 2 :=
    mul_le_mul_of_nonneg_right (by nlinarith [hry]) (sq_nonneg _)
  have hcond : ((x : ℤ) - ((w / 2 : ℕ) : ℤ)) ^ 2 * ((48 * h / 100 : ℕ) : ℤ) ^ 2 +
      ((y : ℤ) - ((h / 2 : ℕ) : ℤ)) ^ 2 * ((48 * w / 100 : ℕ) : ℤ) ^ 2 ≤
      ((48 * w / 100 : ℕ) : ℤ) ^ 2 * ((48 * h / 100 : ℕ) : ℤ) ^ 2 := by
    nlinarith [a1, a2, b1, b2]
  simp only [ellipseMask]
  rw [if_pos hcond]

theorem blurAt_center (K : ℤ → ℤ → ℚ) (hK : KernelValid K 10) (w h : ℕ)
    (hw : 66 ≤ w) (hh : 66 ≤ h) :
    blurAt K 10 (ellipseMask w h) h w (h / 2) (w / 2) = 255 := by
  rw [blurAt]
  have hterm : ∀ dy ∈ Finset.Icc (-(10 : ℤ)) 10, ∀ dx ∈ Finset.Icc (-(10 : ℤ)) 10,
      K dy dx * ((ellipseMask w h (reflect101 h (((h / 2 : ℕ) : ℤ) + dy))
        (reflect101 w (((w / 2 : ℕ) : ℤ) + dx)) : ℕ) : ℚ) = K dy dx * 255 := by
    intro dy hdy dx hdx
    rw [Finset.mem_Icc] at hdy hdx
    have hrefy := reflect101_center h hh dy hdy.1 hdy.2
    have hrefx := reflect101_center w hw dx hdx.1 hdx.2
    rw [ellipseMask_center w h hw hh _ _ (by rw [hrefx]; nlinarith [hdx.1, hdx.2])
      (by rw [hrefy]; nlinarith [hdy.1, hdy.2])]
    norm_num
  calc (∑ dy ∈ Finset.Icc (-(10 : ℤ)) 10, ∑ dx ∈ Finset.Icc (-(10 : ℤ)) 10,
          K dy dx * ((ellipseMask w h (reflect101 h (((h / 2 : ℕ) : ℤ) + dy))
            (reflect101 w (((w / 2 : ℕ) : ℤ) + dx)) : ℕ) : ℚ))
      = ∑ dy ∈ Finset.Icc (-(10 : ℤ)) 10, ∑ dx ∈ Finset.Icc (-(10 : ℤ)) 10, K dy dx * 255 :=
        Finset.sum_congr rfl fun dy hdy =>
          Finset.sum_congr rfl fun dx hdx => hterm dy hdy dx hdx
    _ = (∑ dy ∈ Finset.Icc (-(10 : ℤ)) 10, ∑ dx ∈ Finset.Icc (-(10 : ℤ)) 10, K dy dx) * 255 := by
        rw [Finset.sum_mul]
        exact Finset.sum_congr rfl fun dy _ => (Finset.sum_mul _ _ _).symm
    _ = 1 * 255 := by
        have hsum := hK.2
        norm_num at hsum
        rw [hsum]
    _ = 255 := one_mul _

theorem mulNorm_zero (a : ℕ) : mulNorm a 0 = 0 := by
  simp [mulNorm]

theorem mulNorm_255 (a : ℕ) : mulNorm a 255 = a := by
  unfold mulNorm
  omega

theorem uniformKernel_valid : KernelValid uniformKernel 10 := by
  constructor
  · intro dy dx
    norm_num [uniformKernel]
  · simp only [uniformKernel, Finset.sum_const, Int.card_Icc, nsmul_eq_mul]
    norm_num [show ((21 : ℤ).toNat) = (21 : ℕ) from rfl]

/-- C4 (counterexample): the claim as stated — opacity at the exact image
corners is 0 for *every* input image — is false for small images, where
the blur window of a corner (radius `feather/2 = 10`, borders reflected)
reaches inside the ellipse: on a 10 × 10 image the uniform normalized
window kernel (a valid blur kernel) leaves the corner with opacity ≠ 0. -/
theorem C4_counterexample :
    KernelValid uniformKernel 10 ∧
      (ovalMaskApply uniformKernel (blankImg 10 10)).px 0 0 3 ≠ 0 := by
  refine ⟨uniformKernel_valid, ?_⟩
  have hmem : (5 : ℤ) ∈ Finset.Icc (-(10 : ℕ) : ℤ) ((10 : ℕ) : ℤ) := by decide
  have hnn1 : ∀ dy ∈ Finset.Icc (-(10 : ℕ) : ℤ) ((10 : ℕ) : ℤ),
      (0 : ℚ) ≤ ∑ dx ∈ Finset.Icc (-(10 : ℕ) : ℤ) ((10 : ℕ) : ℤ),
        uniformKernel dy dx * ((ellipseMask 10 10 (reflect101 10 (((0 : ℕ) : ℤ) + dy))
          (reflect101 10 (((0 : ℕ) : ℤ) + dx)) : ℕ) : ℚ) := by
    intro dy _
    exact Finset.sum_nonneg fun dx _ =>
      mul_nonneg (by norm_num [uniformKernel]) (Nat.cast_nonneg _)
  have hnn2 : ∀ dx ∈ Finset.Icc (-(10 : ℕ) : ℤ) ((10 : ℕ) : ℤ),
      (0 : ℚ) ≤ uniformKernel 5 dx * ((ellipseMask 10 10 (reflect101 10 (((0 : ℕ) : ℤ) + 5))
        (reflect101 10 (((0 : ℕ) : ℤ) + dx)) : ℕ) : ℚ) := by
    intro dx _
    exact mul_nonneg (by norm_num [uniformKernel]) (Nat.cast_nonneg _)
  have hmask : ellipseMask 10 10 (reflect101 10 (((0 : ℕ) : ℤ) + 5))
      (reflect101 10 (((0 : ℕ) : ℤ) + 5)) = 255 := by decide
  have hlow : (255 / 441 : ℚ) ≤ blurAt uniformKernel 10 (ellipseMask 10 10) 10 10 0 0 := by
    rw [blurAt]
    calc (255 / 441 : ℚ)
        = uniformKernel 5 5 * ((ellipseMask 10 10 (reflect101 10 (((0 : ℕ) : ℤ) + 5))
            (reflect101 10 (((0 : ℕ) : ℤ) + 5)) : ℕ) : ℚ) := by
          rw [hmask]
          norm_num [uniformKernel]
      _ ≤ ∑ dx ∈ Finset.Icc (-(10 : ℕ) : ℤ) ((10 : ℕ) : ℤ),
            uniformKernel 5 dx * ((ellipseMask 10 10 (reflect101 10 (((0 : ℕ) : ℤ) + 5))
              (reflect101 10 (((0 : ℕ) : ℤ) + dx)) : ℕ) : ℚ) :=
          Finset.single_le_sum hnn2 hmem
      _ ≤ ∑ dy ∈ Finset.Icc (-(10 : ℕ) : ℤ) ((10 : ℕ) : ℤ),
            ∑ dx ∈ Finset.Icc (-(10 : ℕ) : ℤ) ((10 : ℕ) : ℤ),
              uniformKernel dy dx * ((ellipseMask 10 10 (reflect101 10 (((0 : ℕ) : ℤ) + dy))
                (reflect101 10 (((0 : ℕ) : ℤ) + dx)) : ℕ) : ℚ) :=
          Finset.single_le_sum hnn1 hmem
  have hround : (1 : ℤ) ≤ round (blurAt uniformKernel 10 (ellipseMask 10 10) 10 10 0 0) := by
    rw [round_eq]
    have h1 : (1 : ℤ) ≤ ⌊(255 / 441 : ℚ) + 1 / 2⌋ := by norm_num
    exact le_trans h1 (Int.floor_mono (by linarith))
  have key : 1 ≤ (round (blurAt uniformKernel 10 (ellipseMask 10 10) 10 10 0 0)).toNat := by
    omega
  simp only [ovalMaskApply, blankImg]
  norm_num
  unfold mulNorm
  omega

/-- C4 (amended): the oval mask returns a 4-channel image of the same
width and height whose alpha channel is the input's pre-existing opacity
(255 for a 3-channel input) multiplied by the normalized feathered
elliptical mask — composing with, not overwriting, existing opacity — and
colour channels are untouched.  For any valid normalized blur kernel of
window radius `feather/2 = 10`, whenever both dimensions are at least 66
(so the corner blur windows lie entirely outside the ellipse and the
center window entirely inside it) the opacity at all four exact corners
is 0 and the mask factor at the center is maximal: center opacity equals
the input's opacity there (the maximum, 255, for an opaque input).  For
smaller images the corner claim fails (see the counterexample). -/
theorem C4_oval_mask (K : ℤ → ℤ → ℚ) (img : Img)
    (hK : KernelValid K 10) (hw : 66 ≤ img.width) (hh : 66 ≤ img.height) :
    (ovalMaskApply K img).channels = 4 ∧
      (ovalMaskApply K img).height = img.height ∧
      (ovalMaskApply K img).width = img.width ∧
      (∀ y x, (ovalMaskApply K img).px y x 3 =
        mulNorm (if img.channels = 4 then img.px y x 3 else 255)
          (round (blurAt K 10 (ellipseMask img.width img.height)
            img.height img.width y x)).toNat) ∧
      (∀ y x c, c ≠ 3 → (ovalMaskApply K img).px y x c = img.px y x c) ∧
      ((ovalMaskApply K img).px 0 0 3 = 0 ∧
        (ovalMaskApply K img).px 0 (img.width - 1) 3 = 0 ∧
        (ovalMaskApply K img).px (img.height - 1) 0 3 = 0 ∧
        (ovalMaskApply K img).px (img.height - 1) (img.width - 1) 3 = 0) ∧
      (ovalMaskApply K img).px (img.height / 2) (img.width / 2) 3 =
        (if img.channels = 4 then img.px (img.height / 2) (img.width / 2) 3 else 255) := by
  have hcorner : ∀ y0 x0, (y0 = 0 ∨ y0 = img.height - 1) → (x0 = 0 ∨ x0 = img.width - 1) →
      (ovalMaskApply K img).px y0 x0 3 = 0 := by
    intro y0 x0 hy0 hx0
    have hb := blurAt_corner_zero K img.width img.height hw hh x0 y0 hx0 hy0
    simp only [ovalMaskApply]
    rw [if_pos trivial]
    rw [show (21 / 2 : ℕ) = 10 from rfl, hb, round_zero, Int.toNat_zero, mulNorm_zero]
  have hcenter : (ovalMaskApply K img).px (img.height / 2) (img.width / 2) 3 =
      (if img.channels = 4 then img.px (img.height / 2) (img.width / 2) 3 else 255) := by
    have hb := blurAt_center K hK img.width img.height hw hh
    simp only [ovalMaskApply]
    rw [if_pos trivial]
    rw [show (21 / 2 : ℕ) = 10 from rfl, hb]
    rw [show ((255 : ℚ) = ((255 : ℕ) : ℚ)) from by norm_num, round_natCast]
    rw [Int.toNat_natCast, mulNorm_255]
  refine ⟨rfl, rfl, rfl, fun y x => rfl, fun y x c hc => ?_,
    ⟨hcorner 0 0 (Or.inl rfl) (Or.inl rfl), hcorner 0 _ (Or.inl rfl) (Or.inr rfl),
      hcorner _ 0 (Or.inr rfl) (Or.inl rfl), hcorner _ _ (Or.inr rfl) (Or.inr rfl)⟩,
    hcenter⟩
  simp only [ovalMaskApply]
  rw [if_neg hc]

/-- C4 witness: on a concrete opaque 66 × 66 image with the uniform window
kernel, the masked output has 4 channels, corner opacity 0 and center
opacity 255. -/
theorem C4_oval_mask_witness :
    (ovalMaskApply uniformKernel (blankImg 66 66)).channels = 4 ∧
      (ovalMaskApply uniformKernel (blankImg 66 66)).px 0 0 3 = 0 ∧
      (ovalMaskApply uniformKernel (blankImg 66 66)).px 33 33 3 = 255 := by
  have h := C4_oval_mask uniformKernel (blankImg 66 66) uniformKernel_valid
    (le_refl 66) (le_refl 66)
  refine ⟨h.1, h.2.2.2.2.2.1.1, ?_⟩
  have hc := h.2.2.2.2.2.2
  simpa [blankImg] using hc

theorem cvResizeModel_valid : ResizeFnValid cvResizeModel := by
  intro img w' h' hw' hh'
  refine ⟨⟨h', w', img.channels,
    fun y x c => img.px (y * img.height / h') (x * img.width / w') c⟩, ?_, rfl, rfl, rfl⟩
  rw [cvResizeModel, if_neg (by omega)]

/-- C3 witness: a concrete 1 × 1 source resized to a 4 × 4 opaque canvas
succeeds with exact target dimensions. -/
theorem C3_resize_with_padding_witness :
    ∃ out rimg,
      resizeWithPadding cvResizeModel ⟨1, 1, 3, fun _ _ _ => 5⟩ 4 4 (fun _ => 240) false =
        Except.ok out ∧
      cvResizeModel ⟨1, 1, 3, fun _ _ _ => 5⟩ 4 4 = Except.ok rimg ∧
      out.width = 4 ∧ out.height = 4 := by
  obtain ⟨out, rimg, h1, h2, _, _, _, h6, h7, _⟩ :=
    C3_resize_with_padding cvResizeModel ⟨1, 1, 3, fun _ _ _ => 5⟩ 4 4 4 4
      (fun _ => 240) false cvResizeModel_valid (by decide) (by decide)
      (by norm_num [resizedDims]; rfl) (by decide) (by decide)
  exact ⟨out, rimg, h1, h2, h6, h7⟩

end Facecraft
